import Mathlib

/-!
Verification development for the roblox-sales-bot repository.

The repository (src/index.js) contains three near-duplicate variants of one
bot, concatenated in a single file:
- variant 1 (lines 1-358): poller with catch-and-continue insert, analytics
  engine (runAnalytics), snapshot-based forecast command;
- variant 2 (lines 360-659): poller with an in-memory processingSales set and
  a duplicate-key (23505) swallow, 14-day forecast command;
- variant 3 (lines 661-773): poller with an explicit SELECT-then-INSERT check
  and unconditional notification.

Modelling conventions of this shallow embedding:
- The Postgres sales table is a list of rows; the PRIMARY KEY (id_hash)
  constraint together with a plain INSERT is modelled by insertIfAbsent,
  which refuses (returns false) when the key is present and never updates.
- JavaScript number arithmetic is modelled over ℚ (exact arithmetic; IEEE-754
  rounding of doubles is not modelled).
- Math.sqrt is not a rational operation, so the analytics snapshot stores the
  variance; the stored volatility of the real code is Real.sqrt of that field
  and is referred to through Real.sqrt in theorem statements.  The two-sigma
  anomaly test is encoded square-free (spikeB) and related to the sqrt form
  by a proved bridge lemma.
- Timestamps and dates are abstract integers / naturals; SQL ordering and
  grouping are taken as given list structure of query results.
-/

/- ================= Record store (sales table) ================= -/

/-- One row of the sales table (DDL at src/index.js lines 46-56):
id_hash TEXT PRIMARY KEY, group_id BIGINT, item TEXT, buyer TEXT,
buyer_id BIGINT, robux INT, created TIMESTAMP. -/
structure SaleRow where
  id_hash : String
  group_id : ℤ
  item : String
  buyer : String
  buyer_id : ℤ
  robux : ℤ
  created : ℤ
deriving Repr, DecidableEq

/-- Plain INSERT against the id_hash PRIMARY KEY: a duplicate key makes the
insert fail (unique-violation, error code 23505) and the table is unchanged;
otherwise the row is appended.  Returns the new table and whether the row
was stored.  This is the insertIfAbsent primitive of the record store. -/
def insertIfAbsent (t : List SaleRow) (r : SaleRow) : List SaleRow × Bool :=
  if t.any (fun row => row.id_hash == r.id_hash) then (t, false)
  else (t ++ [r], true)

/-- Rows matching the WHERE created >= windowStart filter of the windowed
sum queries (src/index.js lines 115-118). -/
def matchingRows (t : List SaleRow) (windowStart : ℤ) : List SaleRow :=
  t.filter (fun r => windowStart ≤ r.created)

/-- SQL SUM(robux) over a set of rows: NULL (none) over the empty set,
otherwise the integer sum. -/
def sqlSumRobux (l : List SaleRow) : Option ℤ :=
  if l.isEmpty then none else some (l.map (fun r => r.robux)).sum

/-- The windowed-sum query used by sales_today / sales_week / sales_month:
SELECT COALESCE(SUM(robux),0) FROM sales WHERE created >= windowStart.
COALESCE turns the NULL sum of an empty window into the integer 0. -/
def sumSince (t : List SaleRow) (windowStart : ℤ) : ℤ :=
  (sqlSumRobux (matchingRows t windowStart)).getD 0

/- ================= Shared counting helpers ================= -/

/-- A list whose image under f has no duplicates holds at most one element
whose image is any given key. -/
theorem countP_beq_le_one {α β : Type} [BEq β] [LawfulBEq β] (f : α → β) (k : β) :
    ∀ l : List α, (l.map f).Nodup → l.countP (fun x => f x == k) ≤ 1
  | [], _ => by simp
  | a :: l, h => by
    rw [List.map_cons, List.nodup_cons] at h
    rw [List.countP_cons]
    by_cases hb : (f a == k) = true
    · have hak : f a = k := beq_iff_eq.mp hb
      have hz : l.countP (fun x => f x == k) = 0 := by
        rw [List.countP_eq_zero]
        intro x hx hpx
        exact h.1 (hak ▸ (beq_iff_eq.mp hpx) ▸ List.mem_map_of_mem f hx)
      simp [hb, hz]
    · simp only [hb, if_false]
      simpa using countP_beq_le_one f k l h.2

/-- If some element satisfies the predicate, the count is at least one. -/
theorem one_le_countP_of_any {α : Type} (p : α → Bool) (l : List α)
    (h : l.any p = true) : 1 ≤ l.countP p :=
  List.countP_pos_iff.mpr (List.any_eq_true.mp h)

/- ================= insertIfAbsent branch lemmas ================= -/

theorem insertIfAbsent_of_present (t : List SaleRow) (r : SaleRow)
    (h : t.any (fun row => row.id_hash == r.id_hash) = true) :
    insertIfAbsent t r = (t, false) := by
  unfold insertIfAbsent
  rw [if_pos h]

theorem insertIfAbsent_of_absent (t : List SaleRow) (r : SaleRow)
    (h : ¬ t.any (fun row => row.id_hash == r.id_hash) = true) :
    insertIfAbsent t r = (t ++ [r], true) := by
  unfold insertIfAbsent
  rw [if_neg h]

/- ================= Claim C1 ================= -/

/-- C1: submitting two transactions with the same idHash to the record store
leaves exactly one row keyed by that idHash; the second insert attempt is
rejected and is a no-op that leaves the table (hence every field of the
existing row) unchanged — never an update. -/
theorem claim_C1_idempotent_insert (t : List SaleRow) (r1 r2 : SaleRow)
    (hkeys : (t.map SaleRow.id_hash).Nodup) (hsame : r1.id_hash = r2.id_hash) :
    (insertIfAbsent (insertIfAbsent t r1).1 r2).1 = (insertIfAbsent t r1).1
    ∧ (insertIfAbsent (insertIfAbsent t r1).1 r2).2 = false
    ∧ (insertIfAbsent t r1).1.countP (fun row => row.id_hash == r1.id_hash) = 1 := by
  by_cases h : t.any (fun row => row.id_hash == r1.id_hash) = true
  · -- key already present: first insert is itself a no-op
    have h1 : insertIfAbsent t r1 = (t, false) := insertIfAbsent_of_present t r1 h
    have hcount : t.countP (fun row => row.id_hash == r1.id_hash) = 1 :=
      le_antisymm (countP_beq_le_one SaleRow.id_hash r1.id_hash t hkeys)
        (one_le_countP_of_any _ t h)
    have h2 : t.any (fun row => row.id_hash == r2.id_hash) = true := by
      rw [← hsame]; exact h
    have h3 : insertIfAbsent t r2 = (t, false) := insertIfAbsent_of_present t r2 h2
    rw [h1]
    exact ⟨by rw [h3], by rw [h3], hcount⟩
  · -- key absent: first insert stores r1, second is rejected
    have h1 : insertIfAbsent t r1 = (t ++ [r1], true) := insertIfAbsent_of_absent t r1 h
    have hz : t.countP (fun row => row.id_hash == r1.id_hash) = 0 := by
      rw [List.countP_eq_zero]
      intro x hx hpx
      exact h (List.any_eq_true.mpr ⟨x, hx, hpx⟩)
    have h2 : (t ++ [r1]).any (fun row => row.id_hash == r2.id_hash) = true := by
      rw [List.any_eq_true]
      exact ⟨r1, by simp, by simp [hsame]⟩
    have h3 : insertIfAbsent (t ++ [r1]) r2 = (t ++ [r1], false) :=
      insertIfAbsent_of_present (t ++ [r1]) r2 h2
    rw [h1]
    refine ⟨by rw [h3], by rw [h3], ?_⟩
    simp [List.countP_append, hz]

def exRow1 : SaleRow := ⟨"tx1", 10432375, "Shirt", "alice", 7, 5, 100⟩

def exRow2 : SaleRow := ⟨"tx1", 10432375, "Shirt", "alice", 7, 9, 200⟩

/-- Witness for C1 at a concrete pair of rows sharing id_hash "tx1". -/
theorem claim_C1_witness :
    (insertIfAbsent (insertIfAbsent [] exRow1).1 exRow2).1 = (insertIfAbsent [] exRow1).1
    ∧ (insertIfAbsent (insertIfAbsent [] exRow1).1 exRow2).2 = false
    ∧ (insertIfAbsent [] exRow1).1.countP (fun row => row.id_hash == exRow1.id_hash) = 1 :=
  claim_C1_idempotent_insert [] exRow1 exRow2 (by simp) rfl

/- ================= Claim C9 ================= -/

/-- C9: over a window containing zero sale records the windowed-sum query
returns the integer 0 (the SUM itself is NULL, and COALESCE maps it to 0),
never null or undefined. -/
theorem claim_C9_sum_empty_window (t : List SaleRow) (windowStart : ℤ)
    (h : matchingRows t windowStart = []) :
    sqlSumRobux (matchingRows t windowStart) = none ∧ sumSince t windowStart = 0 := by
  constructor
  · simp [sqlSumRobux, h]
  · simp [sumSince, sqlSumRobux, h]

/-- Witness for C9: a one-row table whose only record is older than the
window start. -/
theorem claim_C9_witness :
    sqlSumRobux (matchingRows [exRow1] 500) = none ∧ sumSince [exRow1] 500 = 0 :=
  claim_C9_sum_empty_window [exRow1] 500 (by decide)

/- ================= Analytics engine (runAnalytics, lines 236-277) ============ -/

/-- A row of the analytics_daily snapshot table (DDL lines 58-67).  The real
column volatility holds Math.sqrt of the population variance; the square
root of a rational is not rational, so the row stores the variance, which
determines the stored volatility uniquely (volatility = Real.sqrt variance,
see the claim statements). -/
structure SnapRow where
  date : ℕ
  total : ℚ
  avg7 : ℚ
  avg14 : ℚ
  trend : ℚ
  variance : ℚ
deriving Repr, DecidableEq

/-- A row of the anomalies table (DDL lines 78-84): no key of any kind. -/
structure AnomRow where
  date : ℕ
  reason : String
  value : ℚ
deriving Repr, DecidableEq

/-- The input of one aggregation run: the result rows of
SELECT DATE(created) d, SUM(robux) r FROM sales GROUP BY d ORDER BY d,
i.e. one (date, dailyTotal) pair per distinct day, ascending by date. -/
abbrev DailyRows := List (ℕ × ℚ)

/-- values = r.rows.map(x => x.r) (line 247). -/
def valuesOf (rows : DailyRows) : List ℚ := rows.map Prod.snd

/-- JavaScript list.slice(-n): the n last elements. -/
def lastN (n : ℕ) (l : List ℚ) : List ℚ := l.drop (l.length - n)

/-- today = r.rows.at(-1).d (line 250); 0 as the unreachable default for the
empty list, which the length guard rules out. -/
def dateOf (rows : DailyRows) : ℕ := (rows.getLast?.getD (0, 0)).1

/-- total = values.at(-1) (line 251). -/
def totalOf (rows : DailyRows) : ℚ := (valuesOf rows).getLast?.getD 0

/-- avg7 = values.slice(-7).reduce((a,b)=>a+b,0)/7 (line 252). -/
def avg7Of (rows : DailyRows) : ℚ := (lastN 7 (valuesOf rows)).sum / 7

/-- avg14 = values.slice(-14).reduce((a,b)=>a+b,0)/Math.min(14,values.length)
(line 253). -/
def avg14Of (rows : DailyRows) : ℚ :=
  (lastN 14 (valuesOf rows)).sum / (min 14 (valuesOf rows).length : ℕ)

/-- trend = (total - avg7) / Math.max(avg7,1) (line 255). -/
def trendOf (rows : DailyRows) : ℚ :=
  (totalOf rows - avg7Of rows) / max (avg7Of rows) 1

/-- variance = values.slice(-7).reduce((a,b)=>a+Math.pow(b-avg7,2),0)/7
(line 256).  The code then takes volatility = Math.sqrt(variance). -/
def varianceOf (rows : DailyRows) : ℚ :=
  ((lastN 7 (valuesOf rows)).map (fun b => (b - avg7Of rows) ^ 2)).sum / 7

/-- The two-sigma anomaly test total > avg7 + 2*volatility (line 266) with
volatility = Math.sqrt(variance), encoded without a square root: for
variance ≥ 0 (always true of a sum of squares) it is equivalent to
avg7 < total together with 4*variance < (total - avg7)^2; the bridge lemma
spike_of_sqrt below relates the two forms. -/
def spikeB (rows : DailyRows) : Bool :=
  decide (avg7Of rows < totalOf rows)
    && decide (4 * varianceOf rows < (totalOf rows - avg7Of rows) ^ 2)

/-- INSERT INTO analytics_daily ... ON CONFLICT (date) DO UPDATE SET ...
(lines 259-264): replace the row with the same date if one exists,
otherwise append. -/
def upsertSnapshot (l : List SnapRow) (row : SnapRow) : List SnapRow :=
  if l.any (fun x => x.date == row.date) then
    l.map (fun x => if x.date == row.date then row else x)
  else l ++ [row]

/-- The snapshot row computed by one aggregation run over the given daily
totals (lines 250-257). -/
def snapshotOf (rows : DailyRows) : SnapRow :=
  ⟨dateOf rows, totalOf rows, avg7Of rows, avg14Of rows, trendOf rows, varianceOf rows⟩

/-- One aggregation run (runAnalytics, lines 236-277): read the daily totals;
if fewer than 7 days exist do nothing; otherwise upsert the snapshot for the
most recent date and, when the two-sigma spike test fires, append a
(date, "Spike detected", total) row to the keyless anomalies table. -/
def runAnalytics (rows : DailyRows) (snap : List SnapRow) (anoms : List AnomRow) :
    List SnapRow × List AnomRow :=
  if (valuesOf rows).length < 7 then (snap, anoms)
  else
    (upsertSnapshot snap (snapshotOf rows),
     if spikeB rows then anoms ++ [⟨dateOf rows, "Spike detected", totalOf rows⟩]
     else anoms)

/- ================= Forecast handler (sales_predict, lines 123-150) =========== -/

/-- The four columns the sales_predict handler reads from the latest
analytics_daily row (lines 124-128).  The volatility column is an arbitrary
stored float, modelled as a rational field. -/
structure PredictRow where
  total : ℚ
  avg7 : ℚ
  trend : ℚ
  volatility : ℚ
deriving Repr, DecidableEq

/-- JavaScript Math.round: round half toward positive infinity. -/
def jsRound (x : ℚ) : ℤ := ⌊x + 1 / 2⌋

/-- prediction = Math.max(Math.round(d.avg7 * (1 + d.trend)), 0)
(lines 135-138). -/
def predictionOf (d : PredictRow) : ℤ := max (jsRound (d.avg7 * (1 + d.trend))) 0

inductive Confidence where
  | high
  | medium
  | low
deriving Repr, DecidableEq

/-- confidence = volatility < avg7*0.3 ? High : volatility < avg7*0.6 ?
Medium : Low (lines 140-142). -/
def confidenceOf (d : PredictRow) : Confidence :=
  if d.volatility < d.avg7 * (3 / 10) then .high
  else if d.volatility < d.avg7 * (6 / 10) then .medium
  else .low

/- ================= Definitions taken from the wording of the spec =========== -/

/-- Modelled from the spec: the arithmetic mean of a list of totals. -/
def specMean (l : List ℚ) : ℚ := l.sum / l.length

/-- Modelled from the spec: population variance — sum of squared deviations
from the mean divided by the length (not length - 1). -/
def specPopVariance (l : List ℚ) : ℚ :=
  (l.map (fun x => (x - specMean l) ^ 2)).sum / l.length

/-- Modelled from the spec: predictedNext = round(max(movingAverage7 *
(1 + trend), 0)). -/
def specPredictedNext (avg7 trend : ℚ) : ℤ := jsRound (max (avg7 * (1 + trend)) 0)

/- ================= Analytics helper lemmas ================= -/

/-- Mapping a function that fixes every member of a list is the identity. -/
theorem list_map_self {α : Type} (f : α → α) :
    ∀ l : List α, (∀ x ∈ l, f x = x) → l.map f = l
  | [], _ => rfl
  | a :: l, h => by
    rw [List.map_cons, h a (by simp), list_map_self f l (fun x hx => h x (by simp [hx]))]

/-- Math.max(round(x), 0) agrees with round(max(x, 0)) for the JavaScript
round (floor of x + 1/2). -/
theorem max_jsRound_eq (x : ℚ) : max (jsRound x) 0 = jsRound (max x 0) := by
  unfold jsRound
  rcases le_or_lt 0 x with h | h
  · rw [max_eq_left h, max_eq_left (Int.floor_nonneg.mpr (by linarith))]
  · rw [max_eq_right h.le]
    have h0 : (⌊(0:ℚ) + 1 / 2⌋ : ℤ) = 0 := by norm_num
    rw [h0]
    apply max_eq_right
    calc (⌊x + 1 / 2⌋ : ℤ) ≤ ⌊(0:ℚ) + 1 / 2⌋ := Int.floor_le_floor (by linarith)
    _ = 0 := h0

theorem upsertSnapshot_of_present (l : List SnapRow) (row : SnapRow)
    (h : l.any (fun x => x.date == row.date) = true) :
    upsertSnapshot l row = l.map (fun x => if x.date == row.date then row else x) := by
  unfold upsertSnapshot
  rw [if_pos h]

theorem upsertSnapshot_of_absent (l : List SnapRow) (row : SnapRow)
    (h : ¬ l.any (fun x => x.date == row.date) = true) :
    upsertSnapshot l row = l ++ [row] := by
  unfold upsertSnapshot
  rw [if_neg h]

/-- After an upsert the table always holds a row with the upserted date. -/
theorem upsertSnapshot_any (l : List SnapRow) (row : SnapRow) :
    (upsertSnapshot l row).any (fun x => x.date == row.date) = true := by
  by_cases h : l.any (fun x => x.date == row.date) = true
  · rw [upsertSnapshot_of_present l row h, List.any_eq_true]
    obtain ⟨x, hx, hpx⟩ := List.any_eq_true.mp h
    refine ⟨row, ?_, by simp⟩
    rw [List.mem_map]
    exact ⟨x, hx, by rw [if_pos hpx]⟩
  · rw [upsertSnapshot_of_absent l row h, List.any_eq_true]
    exact ⟨row, by simp, by simp⟩

/-- In an upserted table, every row whose date matches the upserted date is
the upserted row itself, so the replace-step of a repeated upsert fixes
every member. -/
theorem upsertSnapshot_mem_fix (l : List SnapRow) (row : SnapRow) :
    ∀ x ∈ upsertSnapshot l row, (if x.date == row.date then row else x) = x := by
  intro x hx
  by_cases hd : (x.date == row.date) = true
  · rw [if_pos hd]
    by_cases h : l.any (fun y => y.date == row.date) = true
    · rw [upsertSnapshot_of_present l row h, List.mem_map] at hx
      obtain ⟨y, hy, hfy⟩ := hx
      by_cases hyd : (y.date == row.date) = true
      · rw [if_pos hyd] at hfy
        exact hfy
      · rw [if_neg hyd] at hfy
        subst hfy
        exact absurd hd hyd
    · rw [upsertSnapshot_of_absent l row h, List.mem_append] at hx
      rcases hx with hl | hr
      · exact absurd hd (fun hc => h (List.any_eq_true.mpr ⟨x, hl, hc⟩))
      · rw [List.mem_singleton] at hr
        rw [hr]
  · rw [if_neg hd]

/-- Upserting the same row twice equals upserting it once. -/
theorem upsertSnapshot_idem (l : List SnapRow) (row : SnapRow) :
    upsertSnapshot (upsertSnapshot l row) row = upsertSnapshot l row := by
  rw [upsertSnapshot_of_present (upsertSnapshot l row) row (upsertSnapshot_any l row)]
  exact list_map_self _ _ (upsertSnapshot_mem_fix l row)

/-- If the snapshot table keys are pairwise distinct, an upsert leaves
exactly one row carrying the upserted date. -/
theorem countP_upsertSnapshot (l : List SnapRow) (row : SnapRow)
    (h : (l.map SnapRow.date).Nodup) :
    (upsertSnapshot l row).countP (fun x => x.date == row.date) = 1 := by
  by_cases hany : l.any (fun x => x.date == row.date) = true
  · rw [upsertSnapshot_of_present l row hany, List.countP_map]
    have hcomp : ((fun x : SnapRow => x.date == row.date) ∘
        (fun x => if x.date == row.date then row else x))
        = (fun x : SnapRow => x.date == row.date) := by
      funext x
      by_cases hd : (x.date == row.date) = true
      · simp [Function.comp, hd]
      · simp [Function.comp, hd]
    rw [hcomp]
    exact le_antisymm (countP_beq_le_one SnapRow.date row.date l h)
      (one_le_countP_of_any _ l hany)
  · rw [upsertSnapshot_of_absent l row hany, List.countP_append]
    have hz : l.countP (fun x => x.date == row.date) = 0 := by
      rw [List.countP_eq_zero]
      intro x hx hpx
      exact hany (List.any_eq_true.mpr ⟨x, hx, hpx⟩)
    simp [hz]

/-- The population variance computed by the analytics run is nonnegative. -/
theorem varianceOf_nonneg (rows : DailyRows) : 0 ≤ varianceOf rows := by
  unfold varianceOf
  apply div_nonneg _ (by norm_num)
  apply List.sum_nonneg
  intro x hx
  rw [List.mem_map] at hx
  obtain ⟨b, _, rfl⟩ := hx
  positivity

/-- Bridge between the two-sigma spike condition stated with the real square
root of the variance (the form the code computes via Math.sqrt) and the
square-free boolean test used by the model. -/
theorem spikeB_of_real (rows : DailyRows)
    (h : ((avg7Of rows : ℚ) : ℝ) + 2 * Real.sqrt ((varianceOf rows : ℚ) : ℝ)
        < ((totalOf rows : ℚ) : ℝ)) :
    spikeB rows = true := by
  have hv : (0:ℝ) ≤ ((varianceOf rows : ℚ) : ℝ) := by
    exact_mod_cast varianceOf_nonneg rows
  have hs : (0:ℝ) ≤ Real.sqrt ((varianceOf rows : ℚ) : ℝ) := Real.sqrt_nonneg _
  have h1 : ((avg7Of rows : ℚ) : ℝ) < ((totalOf rows : ℚ) : ℝ) := by linarith
  have h2 : 2 * Real.sqrt ((varianceOf rows : ℚ) : ℝ)
      < ((totalOf rows : ℚ) : ℝ) - ((avg7Of rows : ℚ) : ℝ) := by linarith
  have h3 : (2 * Real.sqrt ((varianceOf rows : ℚ) : ℝ)) ^ 2
      < (((totalOf rows : ℚ) : ℝ) - ((avg7Of rows : ℚ) : ℝ)) ^ 2 :=
    pow_lt_pow_left₀ h2 (by positivity) (by norm_num)
  rw [mul_pow, Real.sq_sqrt hv] at h3
  have h1q : avg7Of rows < totalOf rows := by exact_mod_cast h1
  have h3q : 4 * varianceOf rows < (totalOf rows - avg7Of rows) ^ 2 := by
    have : (4:ℝ) * ((varianceOf rows : ℚ) : ℝ)
        < (((totalOf rows : ℚ) : ℝ) - ((avg7Of rows : ℚ) : ℝ)) ^ 2 := by
      calc (4:ℝ) * ((varianceOf rows : ℚ) : ℝ)
          = (2:ℝ) ^ 2 * ((varianceOf rows : ℚ) : ℝ) := by norm_num
      _ < _ := h3
    exact_mod_cast (by push_cast; exact this :
      ((4 * varianceOf rows : ℚ) : ℝ) < (((totalOf rows - avg7Of rows) ^ 2 : ℚ) : ℝ))
  simp [spikeB, h1q, h3q]

/- ================= Claim C3 ================= -/

/-- The seven-day example of the spec: daily totals 10,20,...,70 on seven
consecutive days. -/
def exampleRows : DailyRows := [(1,10),(2,20),(3,30),(4,40),(5,50),(6,60),(7,70)]

/-- C3: with at least 7 daily totals, the aggregation computes
movingAverage7 as the arithmetic mean of the 7 most recent daily totals,
trend as (currentTotal - movingAverage7) / max(movingAverage7, 1), and the
variance under the volatility as the population variance of the same 7
totals; on the totals 10..70 this gives movingAverage7 = 40, trend = 3/4,
variance = 400, hence volatility = sqrt 400 = 20. -/
theorem claim_C3_aggregation_formulas (rows : DailyRows) (h7 : 7 ≤ rows.length) :
    avg7Of rows = specMean (lastN 7 (valuesOf rows))
    ∧ trendOf rows = (totalOf rows - specMean (lastN 7 (valuesOf rows)))
        / max (specMean (lastN 7 (valuesOf rows))) 1
    ∧ varianceOf rows = specPopVariance (lastN 7 (valuesOf rows))
    ∧ avg7Of exampleRows = 40
    ∧ trendOf exampleRows = 3 / 4
    ∧ varianceOf exampleRows = 400
    ∧ Real.sqrt ((varianceOf exampleRows : ℚ) : ℝ) = 20 := by
  have hlen : (lastN 7 (valuesOf rows)).length = 7 := by
    unfold lastN valuesOf
    rw [List.length_drop, List.length_map]
    omega
  have hmean : specMean (lastN 7 (valuesOf rows)) = avg7Of rows := by
    unfold specMean avg7Of
    rw [hlen]
    norm_num
  have e1 : valuesOf exampleRows = [10,20,30,40,50,60,70] := rfl
  have e2 : lastN 7 (valuesOf exampleRows) = [10,20,30,40,50,60,70] := rfl
  have e3 : avg7Of exampleRows = 40 := by
    unfold avg7Of
    rw [e2]
    norm_num [List.sum_cons, List.sum_nil]
  have e4 : totalOf exampleRows = 70 := rfl
  have e5 : trendOf exampleRows = 3 / 4 := by
    unfold trendOf
    rw [e3, e4, max_eq_left (by norm_num : (1:ℚ) ≤ 40)]
    norm_num
  have e6 : varianceOf exampleRows = 400 := by
    unfold varianceOf
    rw [e2, e3]
    simp only [List.map_cons, List.map_nil, List.sum_cons, List.sum_nil]
    norm_num
  refine ⟨hmean.symm, ?_, ?_, e3, e5, e6, ?_⟩
  · unfold trendOf
    rw [hmean]
  · unfold varianceOf specPopVariance
    rw [hlen, hmean]
    norm_num
  · rw [e6, show ((400:ℚ) : ℝ) = 20 ^ 2 by norm_num]
    exact Real.sqrt_sq (by norm_num)

/-- Witness for C3 at the example input. -/
theorem claim_C3_witness :
    avg7Of exampleRows = specMean (lastN 7 (valuesOf exampleRows))
    ∧ trendOf exampleRows = (totalOf exampleRows - specMean (lastN 7 (valuesOf exampleRows)))
        / max (specMean (lastN 7 (valuesOf exampleRows))) 1
    ∧ varianceOf exampleRows = specPopVariance (lastN 7 (valuesOf exampleRows))
    ∧ avg7Of exampleRows = 40
    ∧ trendOf exampleRows = 3 / 4
    ∧ varianceOf exampleRows = 400
    ∧ Real.sqrt ((varianceOf exampleRows : ℚ) : ℝ) = 20 :=
  claim_C3_aggregation_formulas exampleRows (by decide)

/- ================= Claim C4 ================= -/

/-- C4: for every stored snapshot row the forecast handler computes
predictedNext = round(max(movingAverage7 * (1 + trend), 0)) and buckets the
confidence label by thresholding volatility against 30 percent and
60 percent of movingAverage7; a snapshot with movingAverage7 = 40 and
trend = 3/4 yields predictedNext = 70. -/
theorem claim_C4_forecast (d : PredictRow) :
    predictionOf d = specPredictedNext d.avg7 d.trend
    ∧ (confidenceOf d = .high ↔ d.volatility < d.avg7 * (3 / 10))
    ∧ (confidenceOf d = .medium ↔
        ¬ d.volatility < d.avg7 * (3 / 10) ∧ d.volatility < d.avg7 * (6 / 10))
    ∧ (confidenceOf d = .low ↔
        ¬ d.volatility < d.avg7 * (3 / 10) ∧ ¬ d.volatility < d.avg7 * (6 / 10))
    ∧ predictionOf ⟨70, 40, 3 / 4, 20⟩ = 70 := by
  refine ⟨max_jsRound_eq _, ?_, ?_, ?_, ?_⟩
  · unfold confidenceOf
    split_ifs with h1 h2 <;> simp_all
  · unfold confidenceOf
    split_ifs with h1 h2 <;> simp_all
  · unfold confidenceOf
    split_ifs with h1 h2 <;> simp_all
  · unfold predictionOf jsRound
    norm_num

/- ================= Claim C5 ================= -/

/-- C5: an aggregation run over fewer than 7 distinct days performs no
write: both the snapshot table and the anomalies table are returned
unchanged. -/
theorem claim_C5_no_write_below_seven (rows : DailyRows) (snap : List SnapRow)
    (anoms : List AnomRow) (h : rows.length < 7) :
    runAnalytics rows snap anoms = (snap, anoms) := by
  have hg : (valuesOf rows).length < 7 := by
    unfold valuesOf
    rw [List.length_map]
    exact h
  unfold runAnalytics
  rw [if_pos hg]

/-- Witness for C5: a single day of data triggers no write. -/
theorem claim_C5_witness : runAnalytics [(1, 10)] [] [] = ([], []) :=
  claim_C5_no_write_below_seven [(1, 10)] [] [] (by decide)

/- ================= Claim C6 ================= -/

/-- With at least 7 days of data the aggregation run takes the else branch
and its output is an upsert plus a conditional anomaly append. -/
theorem runAnalytics_of_seven (rows : DailyRows) (h7 : 7 ≤ rows.length)
    (snap : List SnapRow) (anoms : List AnomRow) :
    runAnalytics rows snap anoms =
      (upsertSnapshot snap (snapshotOf rows),
       if spikeB rows then anoms ++ [⟨dateOf rows, "Spike detected", totalOf rows⟩]
       else anoms) := by
  have hg : ¬ (valuesOf rows).length < 7 := by
    unfold valuesOf
    rw [List.length_map]
    omega
  unfold runAnalytics
  rw [if_neg hg]

/-- C6: snapshot recomputation is idempotent — over unchanged daily totals a
second aggregation run leaves the snapshot table exactly as the first run
left it, and (keys being unique beforehand) exactly one snapshot row for the
recomputed date exists; the upsert overwrites rather than duplicates. -/
theorem claim_C6_idempotent_upsert (rows : DailyRows) (snap : List SnapRow)
    (anoms : List AnomRow) (h7 : 7 ≤ rows.length)
    (hnd : (snap.map SnapRow.date).Nodup) :
    (runAnalytics rows (runAnalytics rows snap anoms).1 (runAnalytics rows snap anoms).2).1
      = (runAnalytics rows snap anoms).1
    ∧ (runAnalytics rows snap anoms).1.countP (fun x => x.date == dateOf rows) = 1 := by
  rw [runAnalytics_of_seven rows h7 snap anoms,
    runAnalytics_of_seven rows h7 (upsertSnapshot snap (snapshotOf rows)) _]
  exact ⟨upsertSnapshot_idem snap (snapshotOf rows),
    countP_upsertSnapshot snap (snapshotOf rows) hnd⟩

/-- Witness for C6 at the example input over empty tables. -/
theorem claim_C6_witness :
    (runAnalytics exampleRows (runAnalytics exampleRows [] []).1
        (runAnalytics exampleRows [] []).2).1
      = (runAnalytics exampleRows [] []).1
    ∧ (runAnalytics exampleRows [] []).1.countP (fun x => x.date == dateOf exampleRows) = 1 :=
  claim_C6_idempotent_upsert exampleRows [] [] (by decide) (by simp)

/- ================= Claim C10 ================= -/

/-- C10: when the most recent daily total strictly exceeds
movingAverage7 + 2 * volatility (volatility being the square root of the
computed population variance), one aggregation run appends exactly one
(date, "Spike detected", total) row to the keyless anomalies table, and a
second run over the same unchanged data appends a second identical row:
the cycle is not idempotent with respect to the anomalies table. -/
theorem claim_C10_spike_appends (rows : DailyRows) (snap : List SnapRow)
    (anoms : List AnomRow) (h7 : 7 ≤ rows.length)
    (hspike : ((avg7Of rows : ℚ) : ℝ) + 2 * Real.sqrt ((varianceOf rows : ℚ) : ℝ)
        < ((totalOf rows : ℚ) : ℝ)) :
    (runAnalytics rows snap anoms).2
      = anoms ++ [⟨dateOf rows, "Spike detected", totalOf rows⟩]
    ∧ (runAnalytics rows (runAnalytics rows snap anoms).1 (runAnalytics rows snap anoms).2).2
      = anoms ++ [⟨dateOf rows, "Spike detected", totalOf rows⟩,
                  ⟨dateOf rows, "Spike detected", totalOf rows⟩] := by
  have hb : spikeB rows = true := spikeB_of_real rows hspike
  rw [runAnalytics_of_seven rows h7 snap anoms,
    runAnalytics_of_seven rows h7 (upsertSnapshot snap (snapshotOf rows)) _, hb]
  simp

/-- Daily totals with mean 20, population variance 36 (volatility 6) and a
final-day total 34 exceeding 20 + 2 * 6 = 32: a concrete two-sigma spike. -/
def spikeRows : DailyRows := [(1,15),(2,15),(3,18),(4,19),(5,19),(6,20),(7,34)]

/-- Witness for C10 at the concrete spike input. -/
theorem claim_C10_witness :
    (runAnalytics spikeRows [] []).2
      = [] ++ [⟨dateOf spikeRows, "Spike detected", totalOf spikeRows⟩]
    ∧ (runAnalytics spikeRows (runAnalytics spikeRows [] []).1
          (runAnalytics spikeRows [] []).2).2
      = [] ++ [⟨dateOf spikeRows, "Spike detected", totalOf spikeRows⟩,
               ⟨dateOf spikeRows, "Spike detected", totalOf spikeRows⟩] := by
  refine claim_C10_spike_appends spikeRows [] [] (by decide) ?_
  have e1 : valuesOf spikeRows = [15,15,18,19,19,20,34] := rfl
  have e2 : lastN 7 (valuesOf spikeRows) = [15,15,18,19,19,20,34] := rfl
  have ha : avg7Of spikeRows = 20 := by
    unfold avg7Of
    rw [e2]
    norm_num [List.sum_cons, List.sum_nil]
  have ht : totalOf spikeRows = 34 := rfl
  have hv : varianceOf spikeRows = 36 := by
    unfold varianceOf
    rw [e2, ha]
    simp only [List.map_cons, List.map_nil, List.sum_cons, List.sum_nil]
    norm_num
  rw [ha, ht, hv, show ((36:ℚ) : ℝ) = 6 ^ 2 by norm_num,
    Real.sqrt_sq (by norm_num : (0:ℝ) ≤ 6)]
  norm_num

/- ================= Ingestion poller (pollGroup variants) ================= -/

/-- The details object of a feed transaction: asset-type discriminator and
display name (sale.details.type, sale.details.name). -/
structure TxDetails where
  type : String
  name : String
deriving Repr, DecidableEq

/-- sale.agent: buyer name and id. -/
structure TxAgent where
  name : String
  id : ℤ
deriving Repr, DecidableEq

/-- sale.currency: the Robux amount. -/
structure TxCurrency where
  amount : ℤ
deriving Repr, DecidableEq

/-- One transaction object of the fetched feed page.  details is optional:
the code reads sale.details?.type. -/
structure Tx where
  idHash : String
  details : Option TxDetails
  agent : TxAgent
  currency : TxCurrency
  created : ℤ
deriving Repr, DecidableEq

/-- The row the poller inserts for a transaction (lines 197-208). -/
def saleRowOf (g : ℤ) (tx : Tx) (d : TxDetails) : SaleRow :=
  ⟨tx.idHash, g, d.name, tx.agent.name, tx.agent.id, tx.currency.amount, tx.created⟩

/-- The filter sale.details?.type !== "Asset" (line 194), as the positive
test: the transaction is processed exactly when this is true. -/
def isAsset (tx : Tx) : Bool :=
  match tx.details with
  | some d => d.type == "Asset"
  | none => false

/-- Content of a variant-1 notification embed: Item, Price, Group ID
(lines 216-223). -/
structure Notif where
  item : String
  amount : ℤ
  group_id : ℤ
deriving Repr, DecidableEq

/-- Content of a variant-2 notification DM: item name and amount
(line 557; no group id in this variant). -/
structure Notif2 where
  item : String
  amount : ℤ
deriving Repr, DecidableEq

/-- Content of a variant-3 notification embed: Item, Buyer, Price
(lines 740-748). -/
structure Notif3 where
  item : String
  buyer : String
  amount : ℤ
deriving Repr, DecidableEq

/-- The notification variant 1 would emit for a transaction. -/
def notifOf (g : ℤ) (tx : Tx) : Notif :=
  match tx.details with
  | some d => ⟨d.name, tx.currency.amount, g⟩
  | none => ⟨"", tx.currency.amount, 0⟩

/-- The notification variant 2 would emit for a transaction. -/
def notif2Of (tx : Tx) : Notif2 :=
  match tx.details with
  | some d => ⟨d.name, tx.currency.amount⟩
  | none => ⟨"", tx.currency.amount⟩

/-- State threaded through one variant-1 poll cycle: the sales table plus
two observation traces — the idHashes submitted to the store (INSERT
statements issued, in order) and the notifications sent (in order). -/
structure PollState where
  sales : List SaleRow
  submitted : List String
  notifs : List Notif
deriving Repr, DecidableEq

/-- Variant-1 loop body (lines 193-227): skip non-Asset entries, attempt the
insert, on a storage error (duplicate key) continue with the next entry, on
success notify the owner when configured and the amount meets the alert
threshold. -/
def processTx1 (owner : Bool) (alert g : ℤ) (st : PollState) (tx : Tx) : PollState :=
  match tx.details with
  | none => st
  | some d =>
    if d.type ≠ "Asset" then st
    else if (insertIfAbsent st.sales (saleRowOf g tx d)).2 then
      { sales := (insertIfAbsent st.sales (saleRowOf g tx d)).1
        submitted := st.submitted ++ [tx.idHash]
        notifs :=
          if owner ∧ alert ≤ tx.currency.amount then
            st.notifs ++ [⟨d.name, tx.currency.amount, g⟩]
          else st.notifs }
    else { st with submitted := st.submitted ++ [tx.idHash] }

/-- Variant-1 poll cycle over a fetched page: the page arrives newest-first
and is iterated after j.data.reverse() (line 193). -/
def pollGroup1 (owner : Bool) (alert g : ℤ) (st : PollState) (fetched : List Tx) :
    PollState :=
  fetched.reverse.foldl (processTx1 owner alert g) st

/-- State threaded through one variant-2 poll cycle; processing is the
in-memory processingSales set (its 60-second expiry happens outside the
cycle and is not part of the cycle step). -/
structure PollState2 where
  sales : List SaleRow
  processing : List String
  submitted : List String
  notifs : List Notif2
deriving Repr, DecidableEq

/-- Variant-2 loop body (lines 533-561): skip non-Asset entries and recently
seen hashes, attempt the insert swallowing duplicate-key errors (23505),
then notify the owner when configured and the amount meets the threshold —
independently of whether the insert stored anything. -/
def processTx2 (owner : Bool) (alert g : ℤ) (st : PollState2) (tx : Tx) : PollState2 :=
  match tx.details with
  | none => st
  | some d =>
    if d.type ≠ "Asset" then st
    else if st.processing.contains tx.idHash then st
    else
      { sales := (insertIfAbsent st.sales (saleRowOf g tx d)).1
        processing := st.processing ++ [tx.idHash]
        submitted := st.submitted ++ [tx.idHash]
        notifs :=
          if owner ∧ alert ≤ tx.currency.amount then
            st.notifs ++ [⟨d.name, tx.currency.amount⟩]
          else st.notifs }

/-- Variant-2 poll cycle (line 533 reverses the page as well). -/
def pollGroup2 (owner : Bool) (alert g : ℤ) (st : PollState2) (fetched : List Tx) :
    PollState2 :=
  fetched.reverse.foldl (processTx2 owner alert g) st

/-- State threaded through one variant-3 poll cycle. -/
structure PollState3 where
  sales : List SaleRow
  submitted : List String
  notifs : List Notif3
deriving Repr, DecidableEq

/-- Variant-3 loop body (lines 715-751): skip non-Asset entries, skip hashes
already present (SELECT 1 ... WHERE id_hash), insert, and notify
unconditionally on insert. -/
def processTx3 (g : ℤ) (st : PollState3) (tx : Tx) : PollState3 :=
  match tx.details with
  | none => st
  | some d =>
    if d.type ≠ "Asset" then st
    else if st.sales.any (fun r => r.id_hash == tx.idHash) then st
    else
      { sales := st.sales ++ [saleRowOf g tx d]
        submitted := st.submitted ++ [tx.idHash]
        notifs := st.notifs ++ [⟨d.name, tx.agent.name, tx.currency.amount⟩] }

/- ================= Poller step lemmas ================= -/

/-- Variant 1 notifies exactly when the entry is an Asset sale, the owner
recipient is configured, the insert stored the row, and the amount meets
the alert threshold. -/
theorem processTx1_notifs (owner : Bool) (alert g : ℤ) (st : PollState) (tx : Tx) :
    (processTx1 owner alert g st tx).notifs = st.notifs ++
      (match tx.details with
       | none => []
       | some d =>
         if d.type = "Asset" ∧ owner = true
             ∧ (insertIfAbsent st.sales (saleRowOf g tx d)).2 = true
             ∧ alert ≤ tx.currency.amount
         then [⟨d.name, tx.currency.amount, g⟩] else []) := by
  cases htx : tx.details with
  | none => simp [processTx1, htx]
  | some d =>
    by_cases hd : d.type = "Asset"
    · by_cases hins : (insertIfAbsent st.sales (saleRowOf g tx d)).2 = true
      · by_cases hna : owner = true ∧ alert ≤ tx.currency.amount
        · simp [processTx1, htx, hd, hins, hna.1, hna.2]
        · simp only [processTx1, htx, hd, hins]
          simp [hna, and_assoc]
      · simp [processTx1, htx, hd, hins]
    · simp [processTx1, htx, hd]

/-- Variant 2 notifies exactly when the entry is an Asset sale not recently
seen, the owner recipient is configured and the amount meets the threshold;
the outcome of the insert does not enter the condition. -/
theorem processTx2_notifs (owner : Bool) (alert g : ℤ) (st : PollState2) (tx : Tx) :
    (processTx2 owner alert g st tx).notifs = st.notifs ++
      (match tx.details with
       | none => []
       | some d =>
         if d.type = "Asset" ∧ tx.idHash ∉ st.processing
             ∧ owner = true ∧ alert ≤ tx.currency.amount
         then [⟨d.name, tx.currency.amount⟩] else []) := by
  cases htx : tx.details with
  | none => simp [processTx2, htx]
  | some d =>
    by_cases hd : d.type = "Asset"
    · by_cases hpr : tx.idHash ∈ st.processing
      · simp [processTx2, htx, hd, hpr]
      · by_cases hna : owner = true ∧ alert ≤ tx.currency.amount
        · simp [processTx2, htx, hd, hpr, hna.1, hna.2]
        · simp only [processTx2, htx, hd]
          simp [hpr, hna, and_assoc]
    · simp [processTx2, htx, hd]

/-- Every variant-1 step appends the idHash to the submission trace exactly
when the entry is an Asset sale (insert attempted whether or not it is
rejected). -/
theorem processTx1_submitted (owner : Bool) (alert g : ℤ) (st : PollState) (tx : Tx) :
    (processTx1 owner alert g st tx).submitted = st.submitted ++
      (if isAsset tx then [tx.idHash] else []) := by
  cases htx : tx.details with
  | none => simp [processTx1, isAsset, htx]
  | some d =>
    by_cases hd : d.type = "Asset"
    · by_cases hins : (insertIfAbsent st.sales (saleRowOf g tx d)).2 = true
      · simp [processTx1, isAsset, htx, hd, hins]
      · simp [processTx1, isAsset, htx, hd, hins]
    · simp [processTx1, isAsset, htx, hd]

/-- A variant-1 step leaves the state unchanged on non-Asset entries. -/
theorem processTx1_skip (owner : Bool) (alert g : ℤ) (st : PollState) (tx : Tx)
    (h : isAsset tx = false) : processTx1 owner alert g st tx = st := by
  cases htx : tx.details with
  | none => simp [processTx1, htx]
  | some d =>
    rw [isAsset, htx] at h
    simp [processTx1, htx, beq_eq_false_iff_ne.mp h]

/-- A variant-2 step leaves the state unchanged on non-Asset entries. -/
theorem processTx2_skip (owner : Bool) (alert g : ℤ) (st : PollState2) (tx : Tx)
    (h : isAsset tx = false) : processTx2 owner alert g st tx = st := by
  cases htx : tx.details with
  | none => simp [processTx2, htx]
  | some d =>
    rw [isAsset, htx] at h
    simp [processTx2, htx, beq_eq_false_iff_ne.mp h]

/-- A variant-3 step leaves the state unchanged on non-Asset entries. -/
theorem processTx3_skip (g : ℤ) (st : PollState3) (tx : Tx)
    (h : isAsset tx = false) : processTx3 g st tx = st := by
  cases htx : tx.details with
  | none => simp [processTx3, htx]
  | some d =>
    rw [isAsset, htx] at h
    simp [processTx3, htx, beq_eq_false_iff_ne.mp h]

/-- Any row present after a variant-1 step was present before or is the row
of an Asset transaction. -/
theorem processTx1_sales_mem (owner : Bool) (alert g : ℤ) (st : PollState) (tx : Tx)
    (row : SaleRow) (h : row ∈ (processTx1 owner alert g st tx).sales) :
    row ∈ st.sales ∨ ∃ d, tx.details = some d ∧ d.type = "Asset"
      ∧ row = saleRowOf g tx d := by
  cases htx : tx.details with
  | none =>
    rw [processTx1_skip owner alert g st tx (by simp [isAsset, htx])] at h
    exact Or.inl h
  | some d =>
    by_cases hd : d.type = "Asset"
    · by_cases hins : (insertIfAbsent st.sales (saleRowOf g tx d)).2 = true
      · have hab : ¬ st.sales.any
            (fun r => r.id_hash == (saleRowOf g tx d).id_hash) = true := by
          intro hc
          rw [insertIfAbsent_of_present st.sales (saleRowOf g tx d) hc] at hins
          exact Bool.false_ne_true hins
        have hsales : (processTx1 owner alert g st tx).sales
            = st.sales ++ [saleRowOf g tx d] := by
          simp [processTx1, htx, hd, hins,
            insertIfAbsent_of_absent st.sales (saleRowOf g tx d) hab]
        rw [hsales, List.mem_append] at h
        rcases h with hl | hr
        · exact Or.inl hl
        · exact Or.inr ⟨d, rfl, hd, List.mem_singleton.mp hr⟩
      · have hsales : (processTx1 owner alert g st tx).sales = st.sales := by
          simp [processTx1, htx, hd, hins]
        rw [hsales] at h
        exact Or.inl h
    · rw [processTx1_skip owner alert g st tx (by simp [isAsset, htx, hd])] at h
      exact Or.inl h

/- ================= Step case lemmas for the traces ================= -/

/-- Variant-1 step: the notification trace gains nothing or exactly the
notification of an Asset transaction. -/
theorem processTx1_notifs_cases (owner : Bool) (alert g : ℤ) (st : PollState) (tx : Tx) :
    (processTx1 owner alert g st tx).notifs = st.notifs
    ∨ (isAsset tx = true
        ∧ (processTx1 owner alert g st tx).notifs = st.notifs ++ [notifOf g tx]) := by
  cases htx : tx.details with
  | none => exact Or.inl (by simp [processTx1, htx])
  | some d =>
    by_cases hd : d.type = "Asset"
    · by_cases hins : (insertIfAbsent st.sales (saleRowOf g tx d)).2 = true
      · by_cases hna : owner = true ∧ alert ≤ tx.currency.amount
        · refine Or.inr ⟨by simp [isAsset, htx, hd], ?_⟩
          simp [processTx1, notifOf, htx, hd, hins, hna.1, hna.2]
        · refine Or.inl ?_
          simp only [processTx1, htx, hd, hins]
          simp [hna, and_assoc]
      · exact Or.inl (by simp [processTx1, htx, hd, hins])
    · exact Or.inl (by
        rw [processTx1_skip owner alert g st tx (by simp [isAsset, htx, hd])])

/-- Variant-2 step: the submission trace gains nothing or exactly the hash
of an Asset transaction. -/
theorem processTx2_submitted_cases (owner : Bool) (alert g : ℤ) (st : PollState2) (tx : Tx) :
    (processTx2 owner alert g st tx).submitted = st.submitted
    ∨ (isAsset tx = true
        ∧ (processTx2 owner alert g st tx).submitted = st.submitted ++ [tx.idHash]) := by
  cases htx : tx.details with
  | none => exact Or.inl (by simp [processTx2, htx])
  | some d =>
    by_cases hd : d.type = "Asset"
    · by_cases hpr : tx.idHash ∈ st.processing
      · exact Or.inl (by simp [processTx2, htx, hd, hpr])
      · refine Or.inr ⟨by simp [isAsset, htx, hd], ?_⟩
        simp [processTx2, htx, hd, hpr]
    · exact Or.inl (by
        rw [processTx2_skip owner alert g st tx (by simp [isAsset, htx, hd])])

/-- Variant-2 step: the notification trace gains nothing or exactly the
notification of an Asset transaction. -/
theorem processTx2_notifs_cases (owner : Bool) (alert g : ℤ) (st : PollState2) (tx : Tx) :
    (processTx2 owner alert g st tx).notifs = st.notifs
    ∨ (isAsset tx = true
        ∧ (processTx2 owner alert g st tx).notifs = st.notifs ++ [notif2Of tx]) := by
  cases htx : tx.details with
  | none => exact Or.inl (by simp [processTx2, htx])
  | some d =>
    by_cases hd : d.type = "Asset"
    · by_cases hpr : tx.idHash ∈ st.processing
      · exact Or.inl (by simp [processTx2, htx, hd, hpr])
      · by_cases hna : owner = true ∧ alert ≤ tx.currency.amount
        · refine Or.inr ⟨by simp [isAsset, htx, hd], ?_⟩
          simp [processTx2, notif2Of, htx, hd, hpr, hna.1, hna.2]
        · refine Or.inl ?_
          simp only [processTx2, htx, hd]
          simp [hpr, hna, and_assoc]
    · exact Or.inl (by
        rw [processTx2_skip owner alert g st tx (by simp [isAsset, htx, hd])])

/- ================= Fold lemmas ================= -/

/-- The variant-1 submission trace over a processed list: exactly the hashes
of its Asset transactions, in processing order. -/
theorem foldl1_submitted (owner : Bool) (alert g : ℤ) :
    ∀ (l : List Tx) (st : PollState),
      (l.foldl (processTx1 owner alert g) st).submitted
        = st.submitted ++ (l.filter isAsset).map Tx.idHash
  | [], st => by simp
  | tx :: l, st => by
    rw [List.foldl_cons,
      foldl1_submitted owner alert g l (processTx1 owner alert g st tx),
      processTx1_submitted]
    by_cases h : isAsset tx = true
    · simp [List.filter_cons, h]
    · simp [List.filter_cons, h]

/-- Generic trace lemma: if each step appends at most one element to an
observed trace, and appends only at Asset transactions, the trace grown by
a fold is a subsequence of the emitted images of the Asset transactions of
the processed list, in processing order. -/
theorem foldl_trace_sublist {α σ : Type} (step : σ → Tx → σ) (view : σ → List α)
    (emit : Tx → α)
    (hstep : ∀ st tx, view (step st tx) = view st
      ∨ (isAsset tx = true ∧ view (step st tx) = view st ++ [emit tx])) :
    ∀ (l : List Tx) (st : σ),
      ∃ e, view (l.foldl step st) = view st ++ e
        ∧ List.Sublist e ((l.filter isAsset).map emit)
  | [], st => ⟨[], by simp, by simp⟩
  | tx :: l, st => by
    obtain ⟨e, he, hs⟩ := foldl_trace_sublist step view emit hstep l (step st tx)
    rw [List.foldl_cons]
    rcases hstep st tx with h0 | ⟨hA, h0⟩
    · refine ⟨e, by rw [he, h0], ?_⟩
      by_cases hA2 : isAsset tx = true
      · rw [List.filter_cons]
        simp only [hA2, if_true, List.map_cons]
        exact List.Sublist.cons _ hs
      · simpa [List.filter_cons, hA2] using hs
    · refine ⟨emit tx :: e, ?_, ?_⟩
      · rw [he, h0, List.append_assoc]
        rfl
      · rw [List.filter_cons]
        simp only [hA, if_true, List.map_cons]
        exact List.Sublist.cons₂ _ hs

/-- Provenance of sales rows across a variant-1 fold: each row was present
initially or stems from an Asset transaction of the processed list. -/
theorem foldl1_sales_mem (owner : Bool) (alert g : ℤ) :
    ∀ (l : List Tx) (st : PollState) (row : SaleRow),
      row ∈ (l.foldl (processTx1 owner alert g) st).sales →
      row ∈ st.sales ∨ ∃ tx ∈ l, ∃ d, tx.details = some d ∧ d.type = "Asset"
        ∧ row = saleRowOf g tx d
  | [], st, row => fun h => Or.inl (by simpa using h)
  | tx :: l, st, row => fun h => by
    rw [List.foldl_cons] at h
    rcases foldl1_sales_mem owner alert g l (processTx1 owner alert g st tx) row h with
      h1 | ⟨tx', htx', hd⟩
    · rcases processTx1_sales_mem owner alert g st tx row h1 with h2 | ⟨d, hdd⟩
      · exact Or.inl h2
      · exact Or.inr ⟨tx, by simp, d, hdd⟩
    · exact Or.inr ⟨tx', by simp [htx'], hd⟩

/- ================= Claim C2 (corrected) ================= -/

def assetDetails : TxDetails := ⟨"Asset", "Cap"⟩

/-- A feed transaction of the Asset category. -/
def dupTx : Tx := ⟨"tx1", some assetDetails, ⟨"bob", 3⟩, ⟨100⟩, 300⟩

/-- The sales row dupTx produces for group 5. -/
def dupRow : SaleRow := saleRowOf 5 dupTx assetDetails

/-- Counterexample to C2 as stated: in the second poller variant
(lines 533-561) a transaction whose insert is rejected as a duplicate
(the row already sits in the sales table, and the insert returns false and
stores nothing) is nevertheless notified, because the notification runs
after the duplicate-key error is swallowed and only the in-memory
recently-seen set — empty here — gates it. -/
theorem claim_C2_counterexample :
    (insertIfAbsent [dupRow] dupRow).2 = false
    ∧ (processTx2 true 0 5 ⟨[dupRow], [], [], []⟩ dupTx).sales = [dupRow]
    ∧ (processTx2 true 0 5 ⟨[dupRow], [], [], []⟩ dupTx).notifs
        = [⟨"Cap", 100⟩] := by
  decide

/-- C2 amended: in the first poller variant a notification (item name,
amount, group id) is emitted exactly when the entry is an Asset sale, the
owner recipient is configured, the insert returned true and the amount
meets the threshold; in the second variant the insert result is not part of
the condition — a notification (item name, amount) is emitted exactly when
the entry is an Asset sale not in the recently-seen set, the owner is
configured and the amount meets the threshold, even if the insert was
rejected as a duplicate. -/
theorem claim_C2_notification_conditions (owner : Bool) (alert g : ℤ)
    (st1 : PollState) (st2 : PollState2) (tx : Tx) :
    ((processTx1 owner alert g st1 tx).notifs = st1.notifs ++
      (match tx.details with
       | none => []
       | some d =>
         if d.type = "Asset" ∧ owner = true
             ∧ (insertIfAbsent st1.sales (saleRowOf g tx d)).2 = true
             ∧ alert ≤ tx.currency.amount
         then [⟨d.name, tx.currency.amount, g⟩] else []))
    ∧ ((processTx2 owner alert g st2 tx).notifs = st2.notifs ++
      (match tx.details with
       | none => []
       | some d =>
         if d.type = "Asset" ∧ tx.idHash ∉ st2.processing
             ∧ owner = true ∧ alert ≤ tx.currency.amount
         then [⟨d.name, tx.currency.amount⟩] else [])) :=
  ⟨processTx1_notifs owner alert g st1 tx, processTx2_notifs owner alert g st2 tx⟩

/- ================= Claim C7 ================= -/

/-- C7: a transaction whose type discriminator is not "Asset" is never
inserted — each poller variant leaves its whole state unchanged on such an
entry — and every row in the sales table after a variant-1 poll cycle
either predates the cycle or derives from an Asset transaction of the
fetched page. -/
theorem claim_C7_asset_only :
    (∀ (owner : Bool) (alert g : ℤ) (st : PollState) (tx : Tx),
        isAsset tx = false → processTx1 owner alert g st tx = st)
    ∧ (∀ (owner : Bool) (alert g : ℤ) (st : PollState2) (tx : Tx),
        isAsset tx = false → processTx2 owner alert g st tx = st)
    ∧ (∀ (g : ℤ) (st : PollState3) (tx : Tx),
        isAsset tx = false → processTx3 g st tx = st)
    ∧ (∀ (owner : Bool) (alert g : ℤ) (st : PollState) (txs : List Tx) (row : SaleRow),
        row ∈ (pollGroup1 owner alert g st txs).sales →
        row ∈ st.sales ∨ ∃ tx ∈ txs, ∃ d, tx.details = some d ∧ d.type = "Asset"
          ∧ row = saleRowOf g tx d) := by
  refine ⟨processTx1_skip, processTx2_skip, processTx3_skip, ?_⟩
  intro owner alert g st txs row h
  rw [pollGroup1] at h
  rcases foldl1_sales_mem owner alert g txs.reverse st row h with h1 | ⟨tx, htx, hd⟩
  · exact Or.inl h1
  · exact Or.inr ⟨tx, List.mem_reverse.mp htx, hd⟩

def pantsDetails : TxDetails := ⟨"Pants", "Joggers"⟩

/-- A feed transaction outside the Asset category. -/
def pantsTx : Tx := ⟨"tx9", some pantsDetails, ⟨"carol", 4⟩, ⟨50⟩, 400⟩

def emptyState1 : PollState := ⟨[], [], []⟩

def emptyState2 : PollState2 := ⟨[], [], [], []⟩

def emptyState3 : PollState3 := ⟨[], [], []⟩

/-- Witness for C7: the non-Asset transaction is dropped by each variant,
and the row present after polling an Asset transaction derives from it. -/
theorem claim_C7_witness :
    processTx1 true 0 5 emptyState1 pantsTx = emptyState1
    ∧ processTx2 true 0 5 emptyState2 pantsTx = emptyState2
    ∧ processTx3 5 emptyState3 pantsTx = emptyState3
    ∧ (dupRow ∈ emptyState1.sales
        ∨ ∃ tx ∈ [dupTx], ∃ d, tx.details = some d ∧ d.type = "Asset"
            ∧ dupRow = saleRowOf 5 tx d) :=
  ⟨claim_C7_asset_only.1 true 0 5 emptyState1 pantsTx (by decide),
   claim_C7_asset_only.2.1 true 0 5 emptyState2 pantsTx (by decide),
   claim_C7_asset_only.2.2.1 5 emptyState3 pantsTx (by decide),
   claim_C7_asset_only.2.2.2 true 0 5 emptyState1 [dupTx] dupRow (by decide)⟩

/- ================= Claim C8 ================= -/

/-- C8: a fetched page (newest-first) is processed in reverse: the variant-1
submission trace extends by exactly the reverse of the Asset entries of the
fetched list, and every notification trace (variant 1 and variant 2, whose
steps may also skip entries) extends by a subsequence of that reversed
order — records are submitted and notifications emitted oldest-first. -/
theorem claim_C8_oldest_first (owner : Bool) (alert g : ℤ) (st : PollState)
    (st2 : PollState2) (txs : List Tx) :
    (pollGroup1 owner alert g st txs).submitted
      = st.submitted ++ ((txs.filter isAsset).reverse.map Tx.idHash)
    ∧ (∃ e, (pollGroup1 owner alert g st txs).notifs = st.notifs ++ e
        ∧ List.Sublist e ((txs.filter isAsset).reverse.map (notifOf g)))
    ∧ (∃ e, (pollGroup2 owner alert g st2 txs).submitted = st2.submitted ++ e
        ∧ List.Sublist e ((txs.filter isAsset).reverse.map Tx.idHash))
    ∧ (∃ e, (pollGroup2 owner alert g st2 txs).notifs = st2.notifs ++ e
        ∧ List.Sublist e ((txs.filter isAsset).reverse.map notif2Of)) := by
  have hfr : txs.reverse.filter isAsset = (txs.filter isAsset).reverse :=
    List.filter_reverse isAsset txs
  refine ⟨?_, ?_, ?_, ?_⟩
  · rw [pollGroup1, foldl1_submitted, hfr]
  · obtain ⟨e, he, hs⟩ := foldl_trace_sublist (processTx1 owner alert g)
      (fun s => s.notifs) (notifOf g) (processTx1_notifs_cases owner alert g)
      txs.reverse st
    exact ⟨e, by rw [pollGroup1]; exact he, by rwa [hfr] at hs⟩
  · obtain ⟨e, he, hs⟩ := foldl_trace_sublist (processTx2 owner alert g)
      (fun s => s.submitted) Tx.idHash (processTx2_submitted_cases owner alert g)
      txs.reverse st2
    exact ⟨e, by rw [pollGroup2]; exact he, by rwa [hfr] at hs⟩
  · obtain ⟨e, he, hs⟩ := foldl_trace_sublist (processTx2 owner alert g)
      (fun s => s.notifs) notif2Of (processTx2_notifs_cases owner alert g)
      txs.reverse st2
    exact ⟨e, by rw [pollGroup2]; exact he, by rwa [hfr] at hs⟩
